import Mathlib

/-!
# Verification of the fastgltf parsing-engine specification

Shallow embedding of the parts of the repository that the frozen claims
are about:

* the `Category`, and `Error` enumerations from the public header
  (`src/unnamed/part_001`), embedded as their numeric (`Nat`) values;
* the three base64 decoder implementations and their dispatcher from
  `src/src/base64_decode.cpp`, embedded as functions on byte lists
  (`List Nat`, each entry a machine byte value `< 256`).

Machine integers are modelled as `Nat` with explicit `% 2 ^ w` where the
source relies on wrap-around (the `size_t` underflow in the padding scan).
An out-of-bounds vector access — undefined behaviour in the source — is
modelled by returning `none`.
-/

namespace fastgltf

/-! ## The `Category` enumeration (header, lines 129-148)

Each value is written exactly as the C++ enumerator initialiser, with
`1 << k` as `1 <<< k` and `|` as `|||`.  The underlying type is
`uint32_t`; all values are below `2 ^ 14`, so plain `Nat` is faithful. -/

namespace Category

def Buffers : Nat := 1 <<< 0
def BufferViews : Nat := 1 <<< 1 ||| Buffers
def Accessors : Nat := 1 <<< 2 ||| BufferViews
def Images : Nat := 1 <<< 3 ||| BufferViews
def Samplers : Nat := 1 <<< 4
def Textures : Nat := 1 <<< 5 ||| Images ||| Samplers
def Animations : Nat := 1 <<< 6 ||| Accessors
def Cameras : Nat := 1 <<< 7
def Materials : Nat := 1 <<< 8 ||| Textures
def Meshes : Nat := 1 <<< 9 ||| Accessors ||| Materials
/-- In the source: `1 << 10 | Accessors | (1 << 11)`, with the comment
"Also depends on Nodes" attached to the raw `1 << 11` literal. -/
def Skins : Nat := 1 <<< 10 ||| Accessors ||| 1 <<< 11
def Nodes : Nat := 1 <<< 11 ||| Cameras ||| Meshes ||| Skins
def Scenes : Nat := 1 <<< 12 ||| Nodes
def Asset : Nat := 1 <<< 13
def All : Nat := Asset ||| Scenes ||| Animations

end Category

/-! ## The `Error` enumeration (header, lines 36-51) -/

namespace Error

def None : Nat := 0
def InvalidPath : Nat := 1
def MissingExtensions : Nat := 2
def UnknownRequiredExtension : Nat := 3
def InvalidJson : Nat := 4
def InvalidGltf : Nat := 5
def InvalidOrMissingAssetField : Nat := 6
/-- The source assigns `InvalidGLB = 6` as well, colliding with
`InvalidOrMissingAssetField`. -/
def InvalidGLB : Nat := 6
def MissingField : Nat := 7
def MissingExternalBuffer : Nat := 8
def UnsupportedVersion : Nat := 9

end Error

namespace base64

/-- `2 ^ 64`: the modulus of `size_t` arithmetic on the 64-bit targets the
source is written for. -/
def USIZE : Nat := 2 ^ 64

/-! ### The scalar fallback decoder (`fallback_decode`, lines 163-215) -/

/-- The `base64_chars` string, as the list of its ASCII byte values:
`"ABC..XYZabc..xyz012..9+/"`. -/
def base64_chars : List Nat :=
  (List.range 26).map (fun i => 65 + i) ++
  (List.range 26).map (fun i => 97 + i) ++
  (List.range 10).map (fun i => 48 + i) ++ [43, 47]

/-- `std::string::find(char)` starting the search at index `i`: the index
of the first occurrence, or `npos = 2 ^ 64 - 1` when absent. -/
def strFindAux (c : Nat) : List Nat → Nat → Nat
  | [], _ => USIZE - 1
  | x :: xs, i => if x = c then i else strFindAux c xs (i + 1)

/-- `sixBitChars[j] = base64_chars.find(...)`: the `find` result is stored
into a `uint8_t`, hence the `% 256` (npos becomes `0xFF`). -/
def b64lookup (c : Nat) : Nat := strFindAux c base64_chars 0 % 256

/-- The three packing formulas of `fallback_decode` (lines 184-186 and
205-207), on already-looked-up 6-bit values; every result is stored in a
`uint8_t`, hence the `% 256`. -/
def decodeGroup4 (v0 v1 v2 v3 : Nat) : List Nat :=
  [ ((v0 <<< 2) + ((v1 &&& 0x30) >>> 4)) % 256,
    (((v1 &&& 0xf) <<< 4) + ((v2 &&& 0x3c) >>> 2)) % 256,
    (((v2 &&& 0x3) <<< 6) + v3) % 256 ]

/-- The `while (in_len-- && (encoded[pos] != '='))` loop of
`fallback_decode`: buffer up to four characters; on the fourth, look all
four up and emit three bytes.  Returns the final buffer (the source's
`sixBitChars[0..i)`) and the output accumulated so far. -/
def fallback_loop : List Nat → List Nat → List Nat → List Nat × List Nat
  | [], buf, ret => (buf, ret)
  | c :: rest, buf, ret =>
    if c = 61 then (buf, ret)
    else
      match buf with
      | [a, b, d] =>
          fallback_loop rest []
            (ret ++ decodeGroup4 (b64lookup a) (b64lookup b) (b64lookup d) (b64lookup c))
      | _ => fallback_loop rest (buf ++ [c]) ret

/-- `fastgltf::base64::fallback_decode` (lines 168-215).  After the main
loop, a leftover group of `i ∈ {1,2,3}` characters is zero-filled to four,
all four entries are passed through `find` (so the zero fill bytes become
`b64lookup 0 = 255`), and the first `i - 1` packed bytes are appended. -/
def fallback_decode (encoded : List Nat) : List Nat :=
  let st := fallback_loop encoded [] []
  match st.1 with
  | [] => st.2
  | buf =>
      match buf.map b64lookup ++ List.replicate (4 - buf.length) (b64lookup 0) with
      | v0 :: v1 :: v2 :: v3 :: _ =>
          st.2 ++ (decodeGroup4 v0 v1 v2 v3).take (buf.length - 1)
      | _ => st.2

/-! ### The SIMD decoders (`avx2_decode` lines 42-95, `sse4_decode`
lines 116-161)

Both kernels perform, per 32-bit lane of four input characters:

* `lookup_pshufb_bitmask`: the high nibble of each byte selects a shift
  from `shiftLUT` (`_mm256_srli_epi32(x,4)` followed by `& 0x0f` is
  exactly the per-byte high nibble), `_mm256_cmpeq_epi8`/`blendv`
  replaces the shift by `16` for the byte `0x2f` (`/`), and the shift is
  added byte-wise (wrapping, hence `% 256`);
* `pack_ints`: `maddubs(x, 0x01400140)` forms `v0*64 + v1` and
  `v2*64 + v3` per 16-bit lane (no saturation: the maximum is
  `255*64 + 255 = 16575 < 32767`), and `madd(x, 0x00011000)` forms
  `(v0*64+v1)*4096 + (v2*64+v3) = v0*2^18 + v1*2^12 + v2*2^6 + v3`
  per 32-bit lane (maximum `255*266305 < 2^31`, no overflow);
* the `shuf` byte permutation and the two (resp. one) 16-byte stores
  place bytes `2,1,0` of each 32-bit lane — i.e. the big-endian bytes of
  the 24-bit group value — densely at output offsets `3k`, producing 24
  (resp. 12) contiguous output bytes per block.  The 4 permuted `0xff`
  filler bytes of each store are overwritten by the next store or lie in
  the slack the final `resize` drops.

So both kernels compute, for every aligned group of four input bytes,
three output bytes; that common per-group semantics is `decodeGroups`. -/

/-- The `shiftLUT` constant, with the signed bytes `-65`/`-71` as their
`uint8_t` values `191`/`185`. -/
def shiftLUT : List Nat := [0, 0, 19, 4, 191, 191, 185, 185, 0, 0, 0, 0, 0, 0, 0, 0]

/-- `lookup_pshufb_bitmask` restricted to one byte `b < 256`. -/
def lookupByte (b : Nat) : Nat :=
  (b + (if b = 0x2f then 16 else shiftLUT.getD (b / 16 % 16) 0)) % 256

/-- Per-group block decoding common to `avx2_decode` and `sse4_decode`:
each aligned group of four input bytes yields the three big-endian middle
bytes of `v0*2^18 + v1*2^12 + v2*2^6 + v3`. -/
def decodeGroups : List Nat → List Nat
  | c0 :: c1 :: c2 :: c3 :: rest =>
      let w := lookupByte c0 * 2 ^ 18 + lookupByte c1 * 2 ^ 12 +
        lookupByte c2 * 2 ^ 6 + lookupByte c3
      w / 2 ^ 16 % 256 :: w / 2 ^ 8 % 256 :: w % 256 :: decodeGroups rest
  | _ => []

/-- One iteration of the padding-search loop
`for (auto i = encodedSize - 1; i >= (encodedSize - 3); --i)` of the SIMD
decoders.  `i` is a `size_t`, so the decrement wraps modulo `2 ^ 64`; an
access `input[i]` outside the padded copy is undefined behaviour and
yields `none`.  The fuel argument only bounds the recursion: 4 steps are
enough for every input whose padded copy is shorter than `2 ^ 64 - 1`
elements, because after at most three '=' steps `i` is either below the
loop bound or has wrapped to `2 ^ 64 - 1`, where the access is
out of bounds. -/
def scanLoop (input : List Nat) (lo : Nat) : Nat → Nat → Nat → Option Nat
  | 0, _, _ => none
  | fuel + 1, i, padding =>
    if lo ≤ i then
      match input[i]? with
      | none => none
      | some c =>
          if c = 61 then scanLoop input lo fuel ((i + USIZE - 1) % USIZE) (padding + 1)
          else some padding
    else some padding

/-- The padding search of the SIMD decoders (lines 52-58 and 124-130):
scan the padded copy `input` downward from `encodedSize - 1`, counting
trailing `'='` bytes, with `size_t` wrap-around on both loop bounds. -/
def scanPadding (input : List Nat) (encodedSize : Nat) : Option Nat :=
  scanLoop input ((encodedSize + USIZE - 3) % USIZE) 4 ((encodedSize + USIZE - 1) % USIZE) 0

/-- `(encodedSize + dataSetSize - 1) & -dataSetSize` for the power-of-two
block widths 32 and 16: round up to the next multiple of `w`. -/
def alignUp (n w : Nat) : Nat := (n + w - 1) / w * w

/-- `ret.resize(std::floor(static_cast<float>(k) * 0.75f))`.  `0.75f` is
exact and for `3 * k < 2 ^ 24` (so for every `k ≤ 5592405`, far beyond
all the lengths the claims quantify over) the product is exactly
representable in single precision, hence the result is exactly
`⌊3k/4⌋`. -/
def resizeLen (k : Nat) : Nat := 3 * k / 4

/-- `fastgltf::base64::avx2_decode` (lines 42-95): copy the input into a
zero-padded buffer of the next multiple of 32 bytes, run the padding
scan, decode every 32-byte block (eight 4-byte groups) and truncate. -/
def avx2_decode (encoded : List Nat) : Option (List Nat) :=
  let encodedSize := encoded.length
  let input := encoded ++ List.replicate (alignUp encodedSize 32 - encodedSize) 0
  (scanPadding input encodedSize).map fun padding =>
    (decodeGroups input).take (resizeLen (encodedSize - padding))

/-- `fastgltf::base64::sse4_decode` (lines 116-161): identical to
`avx2_decode` except the block width is 16 bytes (four 4-byte groups). -/
def sse4_decode (encoded : List Nat) : Option (List Nat) :=
  let encodedSize := encoded.length
  let input := encoded ++ List.replicate (alignUp encodedSize 16 - encodedSize) 0
  (scanPadding input encodedSize).map fun padding =>
    (decodeGroups input).take (resizeLen (encodedSize - padding))

/-- Outcome of the runtime CPU-capability probe in `decode`
(lines 217-228): which implementation the dispatcher selects. -/
inductive Simd where
  | avx2
  | sse4
  | fallback

/-- `fastgltf::base64::decode` (lines 217-228), parameterised by the
probe outcome.  The always-defined scalar path is lifted into `Option`
for comparison with the SIMD paths. -/
def decode (s : Simd) (encoded : List Nat) : Option (List Nat) :=
  match s with
  | .avx2 => avx2_decode encoded
  | .sse4 => sse4_decode encoded
  | .fallback => some (fallback_decode encoded)

/-! ### Reference encoder and helper notions used by the claims -/

/-- The base64 alphabet character for a 6-bit value (RFC 4648). -/
def encChar (v : Nat) : Nat :=
  if v < 26 then 65 + v
  else if v < 52 then 97 + (v - 26)
  else if v < 62 then 48 + (v - 52)
  else if v = 62 then 43 else 47

/-- Reference base64 encoder (RFC 4648, canonical `'='` padding): the
`encode` against which the spec states the decoder round-trip. -/
def encodeRef : List Nat → List Nat
  | x :: y :: z :: rest =>
      encChar (x / 4) :: encChar (x % 4 * 16 + y / 16) ::
        encChar (y % 16 * 4 + z / 64) :: encChar (z % 64) :: encodeRef rest
  | [x, y] => [encChar (x / 4), encChar (x % 4 * 16 + y / 16), encChar (y % 16 * 4), 61]
  | [x] => [encChar (x / 4), encChar (x % 4 * 16), 61, 61]
  | [] => []

/-- Number of leading `'='` (ASCII 61) bytes. -/
def leadEq : List Nat → Nat
  | [] => 0
  | c :: r => if c = 61 then leadEq r + 1 else 0

/-- Number of trailing `'='` padding characters of an input string. -/
def trailingEqCount (l : List Nat) : Nat := leadEq l.reverse

/-! ### Basic facts about the character-level maps -/

theorem lookupByte_encChar : ∀ v : Nat, v < 64 → lookupByte (encChar v) = v := by decide

theorem b64lookup_encChar : ∀ v : Nat, v < 64 → b64lookup (encChar v) = v := by decide

theorem encChar_ne_61 : ∀ v : Nat, v < 64 → encChar v ≠ 61 := by decide

theorem lookupByte_pad : lookupByte 61 = 65 := by decide

theorem and_mask_of_lt_64 : ∀ v : Nat, v < 64 →
    v &&& 48 = v / 16 * 16 ∧ v &&& 15 = v % 16 ∧ v &&& 60 = v / 4 * 4 ∧ v &&& 3 = v % 4 := by
  decide

/-! ### The padding scan -/

/-- One scan iteration that reads `'='`: count it and continue at `i - 1`
(with `size_t` wrap-around). -/
theorem scanLoop_hit (input : List Nat) (lo fuel i p : Nat) (hlo : lo ≤ i)
    (hget : input[i]? = some 61) :
    scanLoop input lo (fuel + 1) i p =
      scanLoop input lo fuel ((i + USIZE - 1) % USIZE) (p + 1) := by
  conv_lhs => rw [scanLoop]
  rw [if_pos hlo, hget]
  rfl

/-- One scan iteration that reads a non-`'='` byte: break. -/
theorem scanLoop_miss (input : List Nat) (lo fuel i p c : Nat) (hlo : lo ≤ i)
    (hget : input[i]? = some c) (hne : c ≠ 61) :
    scanLoop input lo (fuel + 1) i p = some p := by
  conv_lhs => rw [scanLoop]
  rw [if_pos hlo, hget]
  simp [hne]

/-- The loop condition fails: the scan ends. -/
theorem scanLoop_stop (input : List Nat) (lo fuel i p : Nat) (hlt : i < lo) :
    scanLoop input lo (fuel + 1) i p = some p := by
  conv_lhs => rw [scanLoop]
  rw [if_neg (by omega)]

/-- The scan reads outside the padded copy: undefined behaviour. -/
theorem scanLoop_oob (input : List Nat) (lo fuel i p : Nat) (hlo : lo ≤ i)
    (hget : input[i]? = none) :
    scanLoop input lo (fuel + 1) i p = none := by
  conv_lhs => rw [scanLoop]
  rw [if_pos hlo, hget]

/-- The scan makes no iteration at all when the input is only one or two
bytes long: `encodedSize - 3` wraps around, so the loop condition fails
immediately and the padding count is 0. -/
theorem scanPadding_short (input : List Nat) (n : Nat) (h1 : 1 ≤ n) (h2 : n ≤ 2) :
    scanPadding input n = some 0 := by
  unfold scanPadding
  rw [scanLoop_stop]
  unfold USIZE
  omega

/-- First scanned byte is not `'='`: the scan stops with padding 0. -/
theorem scanPadding_break0 (input : List Nat) (n c : Nat) (h3 : 3 ≤ n) (hn : n ≤ 2 ^ 22)
    (hget : input[n - 1]? = some c) (hne : c ≠ 61) :
    scanPadding input n = some 0 := by
  unfold scanPadding
  rw [show (n + USIZE - 1) % USIZE = n - 1 by unfold USIZE; omega,
    show (n + USIZE - 3) % USIZE = n - 3 by unfold USIZE; omega,
    scanLoop_miss input _ _ _ _ c (by omega) hget hne]

/-- `'='` then a non-`'='`: the scan stops with padding 1. -/
theorem scanPadding_break1 (input : List Nat) (n c : Nat) (h3 : 3 ≤ n) (hn : n ≤ 2 ^ 22)
    (hg1 : input[n - 1]? = some 61) (hg2 : input[n - 2]? = some c) (hne : c ≠ 61) :
    scanPadding input n = some 1 := by
  unfold scanPadding
  rw [show (n + USIZE - 1) % USIZE = n - 1 by unfold USIZE; omega,
    show (n + USIZE - 3) % USIZE = n - 3 by unfold USIZE; omega,
    scanLoop_hit input _ _ _ _ (by omega) hg1,
    show (n - 1 + USIZE - 1) % USIZE = n - 2 by unfold USIZE; omega,
    scanLoop_miss input _ _ _ _ c (by omega) hg2 hne]

/-- Two `'='` then a non-`'='`: the scan stops with padding 2. -/
theorem scanPadding_break2 (input : List Nat) (n c : Nat) (h3 : 3 ≤ n) (hn : n ≤ 2 ^ 22)
    (hg1 : input[n - 1]? = some 61) (hg2 : input[n - 2]? = some 61)
    (hg3 : input[n - 3]? = some c) (hne : c ≠ 61) :
    scanPadding input n = some 2 := by
  unfold scanPadding
  rw [show (n + USIZE - 1) % USIZE = n - 1 by unfold USIZE; omega,
    show (n + USIZE - 3) % USIZE = n - 3 by unfold USIZE; omega,
    scanLoop_hit input _ _ _ _ (by omega) hg1,
    show (n - 1 + USIZE - 1) % USIZE = n - 2 by unfold USIZE; omega,
    scanLoop_hit input _ _ _ _ (by omega) hg2,
    show (n - 2 + USIZE - 1) % USIZE = n - 3 by unfold USIZE; omega,
    scanLoop_miss input _ _ _ _ c (by omega) hg3 hne]

/-- Three `'='` with `n ≥ 4`: after three iterations `i = n - 4` falls
below the loop bound `n - 3`, so the scan stops with padding 3. -/
theorem scanPadding_all3 (input : List Nat) (n : Nat) (h4 : 4 ≤ n) (hn : n ≤ 2 ^ 22)
    (hg1 : input[n - 1]? = some 61) (hg2 : input[n - 2]? = some 61)
    (hg3 : input[n - 3]? = some 61) :
    scanPadding input n = some 3 := by
  unfold scanPadding
  rw [show (n + USIZE - 1) % USIZE = n - 1 by unfold USIZE; omega,
    show (n + USIZE - 3) % USIZE = n - 3 by unfold USIZE; omega,
    scanLoop_hit input _ _ _ _ (by omega) hg1,
    show (n - 1 + USIZE - 1) % USIZE = n - 2 by unfold USIZE; omega,
    scanLoop_hit input _ _ _ _ (by omega) hg2,
    show (n - 2 + USIZE - 1) % USIZE = n - 3 by unfold USIZE; omega,
    scanLoop_hit input _ _ _ _ (by omega) hg3,
    show (n - 3 + USIZE - 1) % USIZE = n - 4 by unfold USIZE; omega,
    scanLoop_stop input _ _ _ _ (by omega)]

/-! ### Structure of the reference encoding -/

theorem encodeRef_append : ∀ (b t : List Nat), b.length % 3 = 0 →
    encodeRef (b ++ t) = encodeRef b ++ encodeRef t
  | [], t, _ => by simp [encodeRef]
  | [_], _, h => by simp at h
  | [_, _], _, h => by simp at h
  | x :: y :: z :: b, t, h => by
      have ih := encodeRef_append b t (by simp at h; omega)
      simp [encodeRef, ih]

theorem encodeRef_length : ∀ b : List Nat, (encodeRef b).length = 4 * ((b.length + 2) / 3)
  | [] => by simp [encodeRef]
  | [_] => by simp [encodeRef]
  | [_, _] => by simp [encodeRef]
  | x :: y :: z :: b => by
      have ih := encodeRef_length b
      simp [encodeRef, ih]
      omega

/-- A complete (unpadded) reference encoding contains no `'='` byte. -/
theorem encodeRef_ne_61 : ∀ b : List Nat, (∀ x ∈ b, x < 256) → b.length % 3 = 0 →
    ∀ c ∈ encodeRef b, c ≠ 61
  | [], _, _ => by simp [encodeRef]
  | [_], _, h => by simp at h
  | [_, _], _, h => by simp at h
  | x :: y :: z :: b, hb, h => by
      have hx : x < 256 := hb x (by simp)
      have hy : y < 256 := hb y (by simp)
      have hz : z < 256 := hb z (by simp)
      have ih := encodeRef_ne_61 b (fun a ha => hb a (by simp [ha])) (by simp at h; omega)
      intro c hc
      simp only [encodeRef, List.mem_cons] at hc
      rcases hc with h0 | h0 | h0 | h0 | h0
      · exact h0 ▸ encChar_ne_61 _ (by omega)
      · exact h0 ▸ encChar_ne_61 _ (by omega)
      · exact h0 ▸ encChar_ne_61 _ (by omega)
      · exact h0 ▸ encChar_ne_61 _ (by omega)
      · exact ih c h0

/-! ### Structure of the block decoder -/

theorem decodeGroups_length : ∀ l : List Nat, (decodeGroups l).length = 3 * (l.length / 4)
  | c0 :: c1 :: c2 :: c3 :: rest => by
      have ih := decodeGroups_length rest
      simp [decodeGroups, ih]
      omega
  | [] => by simp [decodeGroups]
  | [_] => by simp [decodeGroups]
  | [_, _] => by simp [decodeGroups]
  | [_, _, _] => by simp [decodeGroups]

/-- The block decoder inverts the encoder on every complete 3-byte chunk,
whatever follows. -/
theorem decodeGroups_encodeRef : ∀ (b rest : List Nat), (∀ x ∈ b, x < 256) →
    b.length % 3 = 0 → decodeGroups (encodeRef b ++ rest) = b ++ decodeGroups rest
  | [], rest, _, _ => by simp [encodeRef]
  | [_], _, _, h => by simp at h
  | [_, _], _, _, h => by simp at h
  | x :: y :: z :: b, rest, hb, h => by
      have hx : x < 256 := hb x (by simp)
      have hy : y < 256 := hb y (by simp)
      have hz : z < 256 := hb z (by simp)
      have ih := decodeGroups_encodeRef b rest (fun a ha => hb a (by simp [ha]))
        (by simp at h; omega)
      simp only [encodeRef, List.cons_append, decodeGroups, List.append_eq]
      rw [lookupByte_encChar _ (by omega), lookupByte_encChar _ (by omega),
        lookupByte_encChar _ (by omega), lookupByte_encChar _ (by omega), ih]
      simp only [List.cons.injEq]
      exact ⟨by omega, by omega, by omega, trivial⟩

/-! ### The packing formulas of the scalar decoder -/

theorem decodeGroup4_eq (v0 v1 v2 v3 : Nat) (h0 : v0 < 64) (h1 : v1 < 64)
    (h2 : v2 < 64) (h3 : v3 < 64) :
    decodeGroup4 v0 v1 v2 v3 =
      [v0 * 4 + v1 / 16, v1 % 16 * 16 + v2 / 4, v2 % 4 * 64 + v3] := by
  obtain ⟨e1, e2, -, -⟩ := and_mask_of_lt_64 v1 h1
  obtain ⟨-, -, e3, e4⟩ := and_mask_of_lt_64 v2 h2
  simp only [decodeGroup4, Nat.shiftLeft_eq, Nat.shiftRight_eq_div_pow, e1, e2, e3, e4]
  norm_num
  exact ⟨by omega, by omega, by omega⟩

/-- Only the first output byte survives a 2-character leftover group; it
does not depend on the two `0xFF` filler values. -/
theorem decodeGroup4_take1 (v0 v1 v2 v3 : Nat) (h0 : v0 < 64) (h1 : v1 < 64) :
    (decodeGroup4 v0 v1 v2 v3).take 1 = [v0 * 4 + v1 / 16] := by
  obtain ⟨e1, -, -, -⟩ := and_mask_of_lt_64 v1 h1
  simp only [decodeGroup4, Nat.shiftLeft_eq, Nat.shiftRight_eq_div_pow, e1, List.take_succ_cons,
    List.take_zero]
  norm_num
  omega

/-- Only the first two output bytes survive a 3-character leftover group;
they do not depend on the `0xFF` filler value. -/
theorem decodeGroup4_take2 (v0 v1 v2 v3 : Nat) (h0 : v0 < 64) (h1 : v1 < 64) (h2 : v2 < 64) :
    (decodeGroup4 v0 v1 v2 v3).take 2 = [v0 * 4 + v1 / 16, v1 % 16 * 16 + v2 / 4] := by
  obtain ⟨e1, e2, -, -⟩ := and_mask_of_lt_64 v1 h1
  obtain ⟨-, -, e3, -⟩ := and_mask_of_lt_64 v2 h2
  simp only [decodeGroup4, Nat.shiftLeft_eq, Nat.shiftRight_eq_div_pow, e1, e2, e3,
    List.take_succ_cons, List.take_zero]
  norm_num
  exact ⟨by omega, by omega⟩

theorem b64lookup_zero : b64lookup 0 = 255 := by decide

/-! ### The scalar decoder inverts the reference encoder -/

/-- The main loop consumes each complete 4-character group of a reference
encoding and appends the corresponding 3 original bytes. -/
theorem fallback_loop_encodeRef : ∀ (b : List Nat), (∀ x ∈ b, x < 256) →
    b.length % 3 = 0 → ∀ (rest acc : List Nat),
    fallback_loop (encodeRef b ++ rest) [] acc = fallback_loop rest [] (acc ++ b)
  | [], _, _ => by intro rest acc; simp [encodeRef]
  | [_], _, h => by simp at h
  | [_, _], _, h => by simp at h
  | x :: y :: z :: b, hb, h => by
      intro rest acc
      have hx : x < 256 := hb x (by simp)
      have hy : y < 256 := hb y (by simp)
      have hz : z < 256 := hb z (by simp)
      have h1 : ¬(encChar (x / 4) = 61) := encChar_ne_61 _ (by omega)
      have h2 : ¬(encChar (x % 4 * 16 + y / 16) = 61) := encChar_ne_61 _ (by omega)
      have h3 : ¬(encChar (y % 16 * 4 + z / 64) = 61) := encChar_ne_61 _ (by omega)
      have h4 : ¬(encChar (z % 64) = 61) := encChar_ne_61 _ (by omega)
      have ih := fallback_loop_encodeRef b (fun a ha => hb a (by simp [ha]))
        (by simp at h; omega) rest (acc ++ [x, y, z])
      simp only [encodeRef, List.cons_append]
      rw [fallback_loop, if_neg h1]
      simp only [List.nil_append]
      rw [fallback_loop, if_neg h2]
      simp only [List.cons_append, List.nil_append]
      rw [fallback_loop, if_neg h3]
      simp only [List.cons_append, List.nil_append]
      rw [fallback_loop, if_neg h4]
      rw [b64lookup_encChar _ (by omega), b64lookup_encChar _ (by omega),
        b64lookup_encChar _ (by omega), b64lookup_encChar _ (by omega),
        decodeGroup4_eq _ _ _ _ (by omega) (by omega) (by omega) (by omega),
        show x / 4 * 4 + (x % 4 * 16 + y / 16) / 16 = x by omega,
        show (x % 4 * 16 + y / 16) % 16 * 16 + (y % 16 * 4 + z / 64) / 4 = y by omega,
        show (y % 16 * 4 + z / 64) % 4 * 64 + z % 64 = z by omega, ih]
      simp
      all_goals (intro _ _ _ hE; simp at hE)

/-- `fallback_decode` is a left inverse of the reference encoder (on all
byte sequences, the empty one included). -/
theorem fallback_decode_encodeRef (b : List Nat) (hb : ∀ x ∈ b, x < 256) :
    fallback_decode (encodeRef b) = b := by
  obtain ⟨b0, t, hsplit, h03, htlen⟩ :
      ∃ b0 t, b = b0 ++ t ∧ b0.length % 3 = 0 ∧ t.length = b.length % 3 := by
    refine ⟨b.take (3 * (b.length / 3)), b.drop (3 * (b.length / 3)),
      (List.take_append_drop _ b).symm, ?_, ?_⟩
    · simp [List.length_take]
      omega
    · simp [List.length_drop]
      omega
  have hb0 : ∀ a ∈ b0, a < 256 := fun a ha =>
    hb a (by rw [hsplit]; exact List.mem_append_left _ ha)
  have hloop := fallback_loop_encodeRef b0 hb0 h03
  subst hsplit
  rw [encodeRef_append b0 t h03]
  have ht3 : t.length < 3 := by omega
  rcases t with _ | ⟨x, _ | ⟨y, _ | ⟨z, tt⟩⟩⟩
  · -- no leftover bytes: the loop consumes everything, the buffer is empty
    have hst : fallback_loop (encodeRef b0 ++ encodeRef []) [] [] = ([], b0) := by
      rw [hloop (encodeRef []) []]
      simp [encodeRef, fallback_loop]
    simp [fallback_decode, hst]
  · -- one leftover byte `x`: the loop stops at the first `'='` with
    -- buffer `[c0, c1]`; the tail emits the single byte `x`
    have hx256 : x < 256 := hb x (List.mem_append_right _ (by simp))
    have hc0 : ¬(encChar (x / 4) = 61) := encChar_ne_61 _ (by omega)
    have hc1 : ¬(encChar (x % 4 * 16) = 61) := encChar_ne_61 _ (by omega)
    have hst : fallback_loop (encodeRef b0 ++ encodeRef [x]) [] [] =
        ([encChar (x / 4), encChar (x % 4 * 16)], b0) := by
      rw [hloop (encodeRef [x]) []]
      simp only [encodeRef]
      rw [fallback_loop, if_neg hc0]
      simp only [List.nil_append]
      rw [fallback_loop, if_neg hc1]
      simp only [List.cons_append, List.nil_append]
      rw [fallback_loop]
      simp
      all_goals (intro _ _ _ hE; simp at hE)
    simp only [fallback_decode, hst]
    simp only [List.map_cons, List.map_nil, List.length_cons, List.length_nil]
    rw [b64lookup_encChar _ (by omega), b64lookup_encChar _ (by omega)]
    norm_num [List.replicate]
    rw [decodeGroup4_take1 _ _ _ _ (by omega) (by omega),
      show x / 4 * 4 + x % 4 * 16 / 16 = x by omega]
  · -- two leftover bytes `x, y`: the loop stops with buffer `[c0, c1, c2]`;
    -- the tail emits the two bytes `x, y`
    have hx256 : x < 256 := hb x (List.mem_append_right _ (by simp))
    have hy256 : y < 256 := hb y (List.mem_append_right _ (by simp))
    have hc0 : ¬(encChar (x / 4) = 61) := encChar_ne_61 _ (by omega)
    have hc1 : ¬(encChar (x % 4 * 16 + y / 16) = 61) := encChar_ne_61 _ (by omega)
    have hc2 : ¬(encChar (y % 16 * 4) = 61) := encChar_ne_61 _ (by omega)
    have hst : fallback_loop (encodeRef b0 ++ encodeRef [x, y]) [] [] =
        ([encChar (x / 4), encChar (x % 4 * 16 + y / 16), encChar (y % 16 * 4)], b0) := by
      rw [hloop (encodeRef [x, y]) []]
      simp only [encodeRef]
      rw [fallback_loop, if_neg hc0]
      simp only [List.nil_append]
      rw [fallback_loop, if_neg hc1]
      simp only [List.cons_append, List.nil_append]
      rw [fallback_loop, if_neg hc2]
      simp only [List.cons_append, List.nil_append]
      rw [fallback_loop]
      simp
      all_goals (intro _ _ _ hE; simp at hE)
    simp only [fallback_decode, hst]
    simp only [List.map_cons, List.map_nil, List.length_cons, List.length_nil]
    rw [b64lookup_encChar _ (by omega), b64lookup_encChar _ (by omega),
      b64lookup_encChar _ (by omega)]
    norm_num [List.replicate]
    rw [decodeGroup4_take2 _ _ _ _ (by omega) (by omega) (by omega),
      show x / 4 * 4 + (x % 4 * 16 + y / 16) / 16 = x by omega,
      show (x % 4 * 16 + y / 16) % 16 * 16 + y % 16 * 4 / 4 = y by omega]
  · -- impossible: the leftover has length < 3
    simp only [List.length_cons] at ht3
    omega

/-! ### The SIMD decoders invert the reference encoder -/

/-- Reading inside the four-character literal group that follows a
complete encoding prefix. -/
theorem getElem?_append_group (E g zs : List Nat) (j : Nat) (hj : j < g.length) :
    ((E ++ g) ++ zs)[E.length + j]? = g[j]? := by
  rw [List.append_assoc, List.getElem?_append_right (by omega),
    show E.length + j - E.length = j by omega, List.getElem?_append_left hj]

/-- The padding scan sees exactly the canonical padding of a nonempty
reference encoding: `0`, `1` or `2` trailing `'='` characters according
to `b.length % 3`. -/
theorem scanPadding_encodeRef (b zs : List Nat) (hb : ∀ x ∈ b, x < 256) (hne : b ≠ [])
    (hlen : b.length ≤ 2 ^ 20) :
    scanPadding (encodeRef b ++ zs) (encodeRef b).length =
      some ((3 - b.length % 3) % 3) := by
  obtain ⟨b0, t, hsplit, h03, htlen⟩ :
      ∃ b0 t, b = b0 ++ t ∧ b0.length % 3 = 0 ∧ t.length = b.length % 3 := by
    refine ⟨b.take (3 * (b.length / 3)), b.drop (3 * (b.length / 3)),
      (List.take_append_drop _ b).symm, ?_, ?_⟩
    · simp [List.length_take]
      omega
    · simp [List.length_drop]
      omega
  have hb0 : ∀ a ∈ b0, a < 256 := fun a ha =>
    hb a (by rw [hsplit]; exact List.mem_append_left _ ha)
  have hE0 : (encodeRef b0).length = 4 * ((b0.length + 2) / 3) := encodeRef_length b0
  subst hsplit
  simp only [List.length_append] at hlen ⊢
  rw [encodeRef_append b0 t h03]
  have ht3 : t.length < 3 := by omega
  rcases t with _ | ⟨x, _ | ⟨y, _ | ⟨z, tt⟩⟩⟩
  · -- no padding: the last character of the encoding is in the alphabet
    simp only [encodeRef, List.append_nil, List.length_nil, Nat.add_zero] at *
    have hne0 : b0 ≠ [] := hne
    have hl1 : 1 ≤ b0.length := List.length_pos.mpr hne0
    have h4 : 4 ≤ (encodeRef b0).length := by omega
    have hlt : (encodeRef b0).length - 1 < (encodeRef b0).length := by omega
    obtain ⟨c, hc⟩ : ∃ c, (encodeRef b0)[(encodeRef b0).length - 1]? = some c := by
      rw [List.getElem?_eq_getElem hlt]
      exact ⟨_, rfl⟩
    have hget : (encodeRef b0 ++ zs)[(encodeRef b0).length - 1]? = some c := by
      rw [List.getElem?_append_left hlt, hc]
    rw [scanPadding_break0 _ _ _ (by omega) (by omega) hget
      (encodeRef_ne_61 b0 hb0 h03 c (List.getElem?_mem hc)), h03]
  · -- one leftover byte: two `'='` padding characters
    simp only [encodeRef]
    have hx256 : x < 256 := hb x (List.mem_append_right _ (by simp))
    have hlen4 : (encodeRef b0 ++ [encChar (x / 4), encChar (x % 4 * 16), 61, 61]).length =
        (encodeRef b0).length + 4 := by simp
    rw [hlen4]
    have hg1 : ((encodeRef b0 ++ [encChar (x / 4), encChar (x % 4 * 16), 61, 61]) ++ zs)[
        (encodeRef b0).length + 4 - 1]? = some 61 := by
      rw [show (encodeRef b0).length + 4 - 1 = (encodeRef b0).length + 3 by omega,
        getElem?_append_group _ _ _ _ (by simp)]
      simp
    have hg2 : ((encodeRef b0 ++ [encChar (x / 4), encChar (x % 4 * 16), 61, 61]) ++ zs)[
        (encodeRef b0).length + 4 - 2]? = some 61 := by
      rw [show (encodeRef b0).length + 4 - 2 = (encodeRef b0).length + 2 by omega,
        getElem?_append_group _ _ _ _ (by simp)]
      simp
    have hg3 : ((encodeRef b0 ++ [encChar (x / 4), encChar (x % 4 * 16), 61, 61]) ++ zs)[
        (encodeRef b0).length + 4 - 3]? = some (encChar (x % 4 * 16)) := by
      rw [show (encodeRef b0).length + 4 - 3 = (encodeRef b0).length + 1 by omega,
        getElem?_append_group _ _ _ _ (by simp)]
      simp
    rw [scanPadding_break2 _ _ _ (by omega) (by omega) hg1 hg2 hg3
      (encChar_ne_61 _ (by omega))]
    norm_num
    omega
  · -- two leftover bytes: one `'='` padding character
    simp only [encodeRef]
    have hx256 : x < 256 := hb x (List.mem_append_right _ (by simp))
    have hy256 : y < 256 := hb y (List.mem_append_right _ (by simp))
    have hlen4 : (encodeRef b0 ++
        [encChar (x / 4), encChar (x % 4 * 16 + y / 16), encChar (y % 16 * 4), 61]).length =
        (encodeRef b0).length + 4 := by simp
    rw [hlen4]
    have hg1 : ((encodeRef b0 ++
        [encChar (x / 4), encChar (x % 4 * 16 + y / 16), encChar (y % 16 * 4), 61]) ++ zs)[
        (encodeRef b0).length + 4 - 1]? = some 61 := by
      rw [show (encodeRef b0).length + 4 - 1 = (encodeRef b0).length + 3 by omega,
        getElem?_append_group _ _ _ _ (by simp)]
      simp
    have hg2 : ((encodeRef b0 ++
        [encChar (x / 4), encChar (x % 4 * 16 + y / 16), encChar (y % 16 * 4), 61]) ++ zs)[
        (encodeRef b0).length + 4 - 2]? = some (encChar (y % 16 * 4)) := by
      rw [show (encodeRef b0).length + 4 - 2 = (encodeRef b0).length + 2 by omega,
        getElem?_append_group _ _ _ _ (by simp)]
      simp
    rw [scanPadding_break1 _ _ _ (by omega) (by omega) hg1 hg2
      (encChar_ne_61 _ (by omega))]
    norm_num
    omega
  · -- impossible: the leftover has length < 3
    simp only [List.length_cons] at ht3
    omega

/-- Truncating the block-decoded padded encoding to the original byte
count recovers the bytes, whatever zero filler follows the encoding. -/
theorem take_decodeGroups_encodeRef (b zs : List Nat) (hb : ∀ x ∈ b, x < 256) :
    (decodeGroups (encodeRef b ++ zs)).take b.length = b := by
  obtain ⟨b0, t, hsplit, h03, htlen⟩ :
      ∃ b0 t, b = b0 ++ t ∧ b0.length % 3 = 0 ∧ t.length = b.length % 3 := by
    refine ⟨b.take (3 * (b.length / 3)), b.drop (3 * (b.length / 3)),
      (List.take_append_drop _ b).symm, ?_, ?_⟩
    · simp [List.length_take]
      omega
    · simp [List.length_drop]
      omega
  have hb0 : ∀ a ∈ b0, a < 256 := fun a ha =>
    hb a (by rw [hsplit]; exact List.mem_append_left _ ha)
  subst hsplit
  rw [encodeRef_append b0 t h03, List.append_assoc,
    decodeGroups_encodeRef b0 _ hb0 h03, List.length_append,
    List.take_append_eq_append_take, List.take_of_length_le (by omega),
    show b0.length + t.length - b0.length = t.length by omega]
  have ht3 : t.length < 3 := by omega
  congr 1
  rcases t with _ | ⟨x, _ | ⟨y, _ | ⟨z, tt⟩⟩⟩
  · simp
  · -- one leftover byte
    have hx256 : x < 256 := hb x (List.mem_append_right _ (by simp))
    simp only [encodeRef, List.cons_append, List.nil_append, List.length_cons,
      List.length_nil]
    rw [decodeGroups]
    rw [lookupByte_encChar _ (by omega), lookupByte_encChar _ (by omega), lookupByte_pad]
    simp only [List.take_succ_cons, List.take_zero]
    rw [show (x / 4 * 2 ^ 18 + x % 4 * 16 * 2 ^ 12 + 65 * 2 ^ 6 + 65) / 2 ^ 16 % 256 = x
      by omega]
  · -- two leftover bytes
    have hx256 : x < 256 := hb x (List.mem_append_right _ (by simp))
    have hy256 : y < 256 := hb y (List.mem_append_right _ (by simp))
    simp only [encodeRef, List.cons_append, List.nil_append, List.length_cons,
      List.length_nil]
    rw [decodeGroups]
    rw [lookupByte_encChar _ (by omega), lookupByte_encChar _ (by omega),
      lookupByte_encChar _ (by omega), lookupByte_pad]
    simp only [List.take_succ_cons, List.take_zero]
    rw [show (x / 4 * 2 ^ 18 + (x % 4 * 16 + y / 16) * 2 ^ 12 + y % 16 * 4 * 2 ^ 6 + 65) /
        2 ^ 16 % 256 = x by omega,
      show (x / 4 * 2 ^ 18 + (x % 4 * 16 + y / 16) * 2 ^ 12 + y % 16 * 4 * 2 ^ 6 + 65) /
        2 ^ 8 % 256 = y by omega]
  · simp only [List.length_cons] at ht3
    omega

/-- The output size chosen by the `resize` call, at the canonical padding
count, is exactly the original byte count. -/
theorem resizeLen_encodeRef (b : List Nat) :
    resizeLen ((encodeRef b).length - (3 - b.length % 3) % 3) = b.length := by
  rw [encodeRef_length]
  unfold resizeLen
  omega

/-- Common correctness core of both SIMD decoders: whatever zero filler
the width-alignment appends, scanning and block-decoding a nonempty
reference encoding returns exactly the original bytes. -/
theorem simd_core (b zs : List Nat) (hb : ∀ x ∈ b, x < 256) (hne : b ≠ [])
    (hlen : b.length ≤ 2 ^ 20) :
    (scanPadding (encodeRef b ++ zs) (encodeRef b).length).map
      (fun padding => (decodeGroups (encodeRef b ++ zs)).take
        (resizeLen ((encodeRef b).length - padding))) = some b := by
  rw [scanPadding_encodeRef b zs hb hne hlen]
  simp only [Option.map_some']
  rw [resizeLen_encodeRef, take_decodeGroups_encodeRef b zs hb]

/-- `avx2_decode` inverts the reference encoder on nonempty inputs. -/
theorem avx2_decode_encodeRef (b : List Nat) (hb : ∀ x ∈ b, x < 256) (hne : b ≠ [])
    (hlen : b.length ≤ 2 ^ 20) : avx2_decode (encodeRef b) = some b := by
  have h := simd_core b
    (List.replicate (alignUp (encodeRef b).length 32 - (encodeRef b).length) 0) hb hne hlen
  exact h

/-- `sse4_decode` inverts the reference encoder on nonempty inputs. -/
theorem sse4_decode_encodeRef (b : List Nat) (hb : ∀ x ∈ b, x < 256) (hne : b ≠ [])
    (hlen : b.length ≤ 2 ^ 20) : sse4_decode (encodeRef b) = some b := by
  have h := simd_core b
    (List.replicate (alignUp (encodeRef b).length 16 - (encodeRef b).length) 0) hb hne hlen
  exact h

/-! ### The padding scan in terms of the trailing padding count -/

/-- A list of three or more elements ends in three elements. -/
theorem exists_last_three (enc : List Nat) (h3 : 3 ≤ enc.length) :
    ∃ R c2 c1 c0, enc = R ++ [c2, c1, c0] := by
  rcases hrev : enc.reverse with _ | ⟨c0, _ | ⟨c1, _ | ⟨c2, r⟩⟩⟩
  · have hlenr := congrArg List.length hrev
    rw [List.length_reverse] at hlenr
    simp only [List.length_nil, List.length_cons] at hlenr
    omega
  · have hlenr := congrArg List.length hrev
    rw [List.length_reverse] at hlenr
    simp only [List.length_nil, List.length_cons] at hlenr
    omega
  · have hlenr := congrArg List.length hrev
    rw [List.length_reverse] at hlenr
    simp only [List.length_nil, List.length_cons] at hlenr
    omega
  · refine ⟨r.reverse, c2, c1, c0, ?_⟩
    have he : enc = enc.reverse.reverse := (List.reverse_reverse enc).symm
    rw [he, hrev]
    simp

/-- For an input of length at least 3 whose trailing `'='` count is at
most 2, the scan returns exactly that count (and stays in bounds). -/
theorem scanPadding_trailing (enc zs : List Nat) (h3 : 3 ≤ enc.length)
    (hlen : enc.length ≤ 2 ^ 22) (hpad : trailingEqCount enc ≤ 2) :
    scanPadding (enc ++ zs) enc.length = some (trailingEqCount enc) := by
  obtain ⟨R, c2, c1, c0, rfl⟩ := exists_last_three enc h3
  have hlen3 : (R ++ [c2, c1, c0]).length = R.length + 3 := by simp
  rw [hlen3] at hlen ⊢
  by_cases hc0 : c0 = 61
  · by_cases hc1 : c1 = 61
    · by_cases hc2 : c2 = 61
      · -- three trailing `'='`: excluded by the hypothesis
        exfalso
        have ht : 3 ≤ trailingEqCount (R ++ [c2, c1, c0]) := by
          unfold trailingEqCount
          simp [List.reverse_append, hc0, hc1, hc2, leadEq]
        omega
      · -- exactly two trailing `'='`
        have ht : trailingEqCount (R ++ [c2, c1, c0]) = 2 := by
          unfold trailingEqCount
          simp [List.reverse_append, hc0, hc1, hc2, leadEq]
        rw [ht]
        subst hc0 hc1
        refine scanPadding_break2 _ _ c2 (by omega) (by omega) ?_ ?_ ?_ hc2
        · rw [show R.length + 3 - 1 = R.length + 2 by omega,
            getElem?_append_group _ _ _ _ (by simp)]
          simp
        · rw [show R.length + 3 - 2 = R.length + 1 by omega,
            getElem?_append_group _ _ _ _ (by simp)]
          simp
        · rw [show R.length + 3 - 3 = R.length + 0 by omega,
            getElem?_append_group _ _ _ _ (by simp)]
          simp
    · -- exactly one trailing `'='`
      have ht : trailingEqCount (R ++ [c2, c1, c0]) = 1 := by
        unfold trailingEqCount
        simp [List.reverse_append, hc0, hc1, leadEq]
      rw [ht]
      subst hc0
      refine scanPadding_break1 _ _ c1 (by omega) (by omega) ?_ ?_ hc1
      · rw [show R.length + 3 - 1 = R.length + 2 by omega,
          getElem?_append_group _ _ _ _ (by simp)]
        simp
      · rw [show R.length + 3 - 2 = R.length + 1 by omega,
          getElem?_append_group _ _ _ _ (by simp)]
        simp
  · -- no trailing `'='`
    have ht : trailingEqCount (R ++ [c2, c1, c0]) = 0 := by
      unfold trailingEqCount
      simp [List.reverse_append, hc0, leadEq]
    rw [ht]
    refine scanPadding_break0 _ _ c0 (by omega) (by omega) ?_ hc0
    rw [show R.length + 3 - 1 = R.length + 2 by omega,
      getElem?_append_group _ _ _ _ (by simp)]
    simp

/-- For every nonempty input other than `"==="`, the scan terminates
without reading out of bounds. -/
theorem scanPadding_isSome (enc zs : List Nat) (hne : enc ≠ [])
    (hne3 : enc ≠ [61, 61, 61]) (hlen : enc.length ≤ 2 ^ 22) :
    (scanPadding (enc ++ zs) enc.length).isSome := by
  rcases Nat.lt_or_ge enc.length 3 with hlt | hge
  · -- length 1 or 2: the loop body never runs
    have h1 : 1 ≤ enc.length := List.length_pos.mpr hne
    rw [scanPadding_short _ _ h1 (by omega)]
    rfl
  rcases Nat.lt_or_ge (trailingEqCount enc) 3 with hp | hp
  · rw [scanPadding_trailing enc zs hge hlen (by omega)]
    rfl
  · -- at least three trailing `'='`
    obtain ⟨R, c2, c1, c0, rfl⟩ := exists_last_three enc hge
    have hlen3 : (R ++ [c2, c1, c0]).length = R.length + 3 := by simp
    have hc0 : c0 = 61 := by
      by_contra hc
      have ht : trailingEqCount (R ++ [c2, c1, c0]) = 0 := by
        unfold trailingEqCount
        simp [List.reverse_append, hc, leadEq]
      omega
    have hc1 : c1 = 61 := by
      by_contra hc
      have ht : trailingEqCount (R ++ [c2, c1, c0]) = 1 := by
        unfold trailingEqCount
        simp [List.reverse_append, hc0, hc, leadEq]
      omega
    have hc2 : c2 = 61 := by
      by_contra hc
      have ht : trailingEqCount (R ++ [c2, c1, c0]) = 2 := by
        unfold trailingEqCount
        simp [List.reverse_append, hc0, hc1, hc, leadEq]
      omega
    subst hc0 hc1 hc2
    have hR : R ≠ [] := by
      intro h
      subst h
      simp at hne3
    have hR1 : 1 ≤ R.length := List.length_pos.mpr hR
    rw [hlen3] at hlen ⊢
    rw [scanPadding_all3 _ _ (by omega) (by omega) ?_ ?_ ?_]
    · rfl
    · rw [show R.length + 3 - 1 = R.length + 2 by omega,
        getElem?_append_group _ _ _ _ (by simp)]
      simp
    · rw [show R.length + 3 - 2 = R.length + 1 by omega,
        getElem?_append_group _ _ _ _ (by simp)]
      simp
    · rw [show R.length + 3 - 3 = R.length + 0 by omega,
        getElem?_append_group _ _ _ _ (by simp)]
      simp

/-- Output length produced by scanning and truncating, for inputs of
length at least 3 with at most two trailing `'='` characters, whatever
filler pads the input to at least the next multiple of four. -/
theorem simd_len_core (enc zs : List Nat) (h3 : 3 ≤ enc.length)
    (hlen : enc.length ≤ 2 ^ 22) (hpad : trailingEqCount enc ≤ 2)
    (hmul : enc.length ≤ (enc.length + zs.length) / 4 * 4) :
    ((scanPadding (enc ++ zs) enc.length).map fun p =>
      (decodeGroups (enc ++ zs)).take (resizeLen (enc.length - p))).map List.length =
      some (3 * (enc.length - trailingEqCount enc) / 4) := by
  rw [scanPadding_trailing enc zs h3 hlen hpad]
  simp only [Option.map_some']
  rw [List.length_take, decodeGroups_length, List.length_append]
  unfold resizeLen
  congr 1
  omega

end base64

/-! ## The claims -/

/-- C1 (counterexample).  The empty string is a valid base64 input of
length 0 with no padding, yet the SIMD decoders do not return the empty
output the scalar decoder returns: their padding scan underflows
`encodedSize - 1` and reads index `2 ^ 64 - 1` of the empty padded copy
(undefined behaviour, modelled as `none`). -/
theorem C1_counterexample :
    base64.avx2_decode (base64.encodeRef []) = none ∧
    base64.sse4_decode (base64.encodeRef []) = none ∧
    base64.fallback_decode (base64.encodeRef []) = [] ∧
    base64.avx2_decode (base64.encodeRef []) ≠
      some (base64.fallback_decode (base64.encodeRef [])) := by
  decide

/-- C1 (amended).  For every valid, canonically padded base64 string of
nonzero length at most 2000 — i.e. every string that is the reference
encoding of some nonempty byte sequence — the three decoder
implementations return byte-identical output. -/
theorem C1_theorem (s : List Nat)
    (hvalid : ∃ b, (∀ x ∈ b, x < 256) ∧ b ≠ [] ∧ base64.encodeRef b = s)
    (hlen : s.length ≤ 2000) :
    base64.avx2_decode s = some (base64.fallback_decode s) ∧
    base64.sse4_decode s = some (base64.fallback_decode s) := by
  obtain ⟨b, hb, hne, henc⟩ := hvalid
  subst henc
  have hblen : b.length ≤ 2 ^ 20 := by
    have := base64.encodeRef_length b
    omega
  rw [base64.fallback_decode_encodeRef b hb,
    base64.avx2_decode_encodeRef b hb hne hblen,
    base64.sse4_decode_encodeRef b hb hne hblen]
  exact ⟨rfl, rfl⟩

/-- C1 (witness): the amended equivalence at the concrete valid input
`"AA=="`, the encoding of the single byte `0`. -/
theorem C1_witness :
    (∃ b, (∀ x ∈ b, x < 256) ∧ b ≠ [] ∧ base64.encodeRef b = [65, 65, 61, 61]) ∧
    ([65, 65, 61, 61] : List Nat).length ≤ 2000 ∧
    (base64.avx2_decode [65, 65, 61, 61] =
        some (base64.fallback_decode [65, 65, 61, 61]) ∧
      base64.sse4_decode [65, 65, 61, 61] =
        some (base64.fallback_decode [65, 65, 61, 61])) :=
  ⟨⟨[0], by decide, by decide, by decide⟩, by decide,
    C1_theorem [65, 65, 61, 61] ⟨[0], by decide, by decide, by decide⟩ (by decide)⟩

/-- C2 (counterexample).  The claimed containment fails for the pair
(Skins, Nodes): `Skins & Nodes ≠ Nodes`, because `Skins` contains only
the raw `1 << 11` bit of `Nodes`, not the full stored value of `Nodes`
(which includes Cameras and Meshes and could not be referenced without
circularity). -/
theorem C2_counterexample :
    Category.Skins &&& Category.Nodes ≠ Category.Nodes := by decide

/-- C2 (amended).  Every dependency pair of the spec's list satisfies
`C & D = D` — except (Skins, Nodes), where `Skins` contains exactly the
distinguishing bit `1 << 11` of `Nodes` rather than its full value. -/
theorem C2_theorem :
    Category.BufferViews &&& Category.Buffers = Category.Buffers ∧
    Category.Accessors &&& Category.BufferViews = Category.BufferViews ∧
    Category.Images &&& Category.BufferViews = Category.BufferViews ∧
    Category.Textures &&& Category.Images = Category.Images ∧
    Category.Textures &&& Category.Samplers = Category.Samplers ∧
    Category.Materials &&& Category.Textures = Category.Textures ∧
    Category.Meshes &&& Category.Accessors = Category.Accessors ∧
    Category.Meshes &&& Category.Materials = Category.Materials ∧
    Category.Skins &&& Category.Accessors = Category.Accessors ∧
    Category.Skins &&& 1 <<< 11 = 1 <<< 11 ∧
    Category.Nodes &&& Category.Cameras = Category.Cameras ∧
    Category.Nodes &&& Category.Meshes = Category.Meshes ∧
    Category.Nodes &&& Category.Skins = Category.Skins ∧
    Category.Scenes &&& Category.Nodes = Category.Nodes ∧
    Category.Animations &&& Category.Accessors = Category.Accessors := by
  decide

/-- C3 (counterexample).  For the empty byte sequence (length 0, within
the claimed range 0..4096) the dispatched decode is not a left inverse
of the encoder on AVX2-capable hosts: the SIMD path reads out of bounds
on the empty encoding (modelled as `none`). -/
theorem C3_counterexample :
    base64.decode base64.Simd.avx2 (base64.encodeRef []) ≠ some [] := by decide

/-- C3 (amended).  For every byte sequence of length 1..4096 and every
dispatch outcome, applying `decode` to the reference base64 encoding
returns exactly the original bytes. -/
theorem C3_theorem (s : base64.Simd) (b : List Nat) (hb : ∀ x ∈ b, x < 256)
    (h1 : 1 ≤ b.length) (h2 : b.length ≤ 4096) :
    base64.decode s (base64.encodeRef b) = some b := by
  have hne : b ≠ [] := by
    intro h
    rw [h] at h1
    simp at h1
  have hlen : b.length ≤ 2 ^ 20 := by omega
  cases s
  · exact base64.avx2_decode_encodeRef b hb hne hlen
  · exact base64.sse4_decode_encodeRef b hb hne hlen
  · show some (base64.fallback_decode (base64.encodeRef b)) = some b
    rw [base64.fallback_decode_encodeRef b hb]

/-- C3 (witness): the round trip at the byte `0xFF`, whose encoding is
`"/w=="`, on the AVX2 path. -/
theorem C3_witness :
    (∀ x ∈ ([255] : List Nat), x < 256) ∧ 1 ≤ ([255] : List Nat).length ∧
    ([255] : List Nat).length ≤ 4096 ∧
    base64.decode base64.Simd.avx2 (base64.encodeRef [255]) = some [255] :=
  ⟨by decide, by decide, by decide,
    C3_theorem base64.Simd.avx2 [255] (by decide) (by decide) (by decide)⟩

/-- C4.  The scalar fallback returns the empty output on the empty
input, but the two SIMD decoders read index `2 ^ 64 - 1` of their empty
padded copy (the `size_t` loop bound `encodedSize - 1` underflows):
undefined behaviour, modelled as `none`, where the spec requires the
empty output. -/
theorem C4_theorem :
    base64.fallback_decode [] = [] ∧
    base64.decode base64.Simd.fallback [] = some [] ∧
    base64.avx2_decode [] = none ∧
    base64.sse4_decode [] = none := by
  decide

/-- C5 (counterexample).  On the input `"=="` (two trailing `'='`), the
scan never runs (its lower bound `encodedSize - 3` wraps around for
lengths below 3), so `avx2_decode` counts 0 padding and returns 1 byte,
while the claimed formula `⌊0.75 × (2 − 2)⌋` demands 0 bytes. -/
theorem C5_counterexample :
    (base64.avx2_decode [61, 61]).map List.length = some 1 ∧
    base64.trailingEqCount [61, 61] = 2 ∧
    3 * (([61, 61] : List Nat).length - base64.trailingEqCount [61, 61]) / 4 = 0 := by
  decide

/-- C5 (amended).  For every byte-valued input of length between 3 and
`2 ^ 22` (where the single-precision arithmetic of the `resize` call is
exact) with at most two trailing `'='` characters, the output of
`avx2_decode` and of `sse4_decode` has exactly
`⌊0.75 × (length − paddingCount)⌋` bytes. -/
theorem C5_theorem (enc : List Nat) (h3 : 3 ≤ enc.length)
    (hlen : enc.length ≤ 2 ^ 22) (hpad : base64.trailingEqCount enc ≤ 2) :
    (base64.avx2_decode enc).map List.length =
      some (3 * (enc.length - base64.trailingEqCount enc) / 4) ∧
    (base64.sse4_decode enc).map List.length =
      some (3 * (enc.length - base64.trailingEqCount enc) / 4) := by
  constructor
  · have h := base64.simd_len_core enc
      (List.replicate (base64.alignUp enc.length 32 - enc.length) 0) h3 hlen hpad ?_
    · exact h
    · rw [List.length_replicate]
      unfold base64.alignUp
      omega
  · have h := base64.simd_len_core enc
      (List.replicate (base64.alignUp enc.length 16 - enc.length) 0) h3 hlen hpad ?_
    · exact h
    · rw [List.length_replicate]
      unfold base64.alignUp
      omega

/-- C5 (witness): the amended length formula at the unpadded input
`"ABC"` of length 3, which decodes to 2 bytes. -/
theorem C5_witness :
    3 ≤ ([65, 66, 67] : List Nat).length ∧
    ([65, 66, 67] : List Nat).length ≤ 2 ^ 22 ∧
    base64.trailingEqCount [65, 66, 67] ≤ 2 ∧
    ((base64.avx2_decode [65, 66, 67]).map List.length =
        some (3 * (([65, 66, 67] : List Nat).length -
          base64.trailingEqCount [65, 66, 67]) / 4) ∧
      (base64.sse4_decode [65, 66, 67]).map List.length =
        some (3 * (([65, 66, 67] : List Nat).length -
          base64.trailingEqCount [65, 66, 67]) / 4)) :=
  ⟨by decide, by decide, by decide,
    C5_theorem [65, 66, 67] (by decide) (by decide) (by decide)⟩

/-- C6.  The literal fixtures: `decode "/w==" = [0xFF]` and
`decode "/+8=" = [0xFF, 0xEF]` hold on every dispatch path, and `'/'`
(byte 0x2F) maps to 63 both through the SIMD special case and through
the scalar alphabet search. -/
theorem C6_theorem :
    base64.decode base64.Simd.avx2 [47, 119, 61, 61] = some [255] ∧
    base64.decode base64.Simd.sse4 [47, 119, 61, 61] = some [255] ∧
    base64.decode base64.Simd.fallback [47, 119, 61, 61] = some [255] ∧
    base64.decode base64.Simd.avx2 [47, 43, 56, 61] = some [255, 239] ∧
    base64.decode base64.Simd.sse4 [47, 43, 56, 61] = some [255, 239] ∧
    base64.decode base64.Simd.fallback [47, 43, 56, 61] = some [255, 239] ∧
    base64.lookupByte 47 = 63 ∧
    base64.b64lookup 47 = 63 := by
  decide

/-- C7.  `Category::Meshes` contains exactly the distinguishing bits of
Buffers (0), BufferViews (1), Accessors (2), Images (3), Samplers (4),
Textures (5), Materials (8) and Meshes itself (9), and none of the bits
of Animations (6), Cameras (7), Skins (10), Nodes (11), Scenes (12) or
Asset (13). -/
theorem C7_theorem :
    Category.Meshes &&& 1 <<< 0 = 1 <<< 0 ∧
    Category.Meshes &&& 1 <<< 1 = 1 <<< 1 ∧
    Category.Meshes &&& 1 <<< 2 = 1 <<< 2 ∧
    Category.Meshes &&& 1 <<< 3 = 1 <<< 3 ∧
    Category.Meshes &&& 1 <<< 4 = 1 <<< 4 ∧
    Category.Meshes &&& 1 <<< 5 = 1 <<< 5 ∧
    Category.Meshes &&& 1 <<< 8 = 1 <<< 8 ∧
    Category.Meshes &&& 1 <<< 9 = 1 <<< 9 ∧
    Category.Meshes &&& 1 <<< 6 = 0 ∧
    Category.Meshes &&& 1 <<< 7 = 0 ∧
    Category.Meshes &&& 1 <<< 10 = 0 ∧
    Category.Meshes &&& 1 <<< 11 = 0 ∧
    Category.Meshes &&& 1 <<< 12 = 0 ∧
    Category.Meshes &&& 1 <<< 13 = 0 := by
  decide

/-- C8.  `InvalidOrMissingAssetField` and `InvalidGLB` share the numeric
value 6; every other error kind carries its own listed distinct value. -/
theorem C8_theorem :
    Error.None = 0 ∧ Error.InvalidPath = 1 ∧ Error.MissingExtensions = 2 ∧
    Error.UnknownRequiredExtension = 3 ∧ Error.InvalidJson = 4 ∧
    Error.InvalidGltf = 5 ∧ Error.InvalidOrMissingAssetField = 6 ∧
    Error.InvalidGLB = 6 ∧ Error.InvalidOrMissingAssetField = Error.InvalidGLB ∧
    Error.MissingField = 7 ∧ Error.MissingExternalBuffer = 8 ∧
    Error.UnsupportedVersion = 9 := by
  decide

/-- C9.  `Category::All` is the bitwise union of all fourteen defined
category flags. -/
theorem C9_theorem :
    Category.All = Category.Buffers ||| Category.BufferViews ||| Category.Accessors |||
      Category.Images ||| Category.Samplers ||| Category.Textures |||
      Category.Animations ||| Category.Cameras ||| Category.Materials |||
      Category.Meshes ||| Category.Skins ||| Category.Nodes ||| Category.Scenes |||
      Category.Asset := by
  decide

/-- C10 (counterexample).  On the nonempty input `"==="` the padding
scan of both SIMD decoders runs past its three in-range iterations: `i`
wraps from 0 to `2 ^ 64 - 1` and the loop condition `i ≥ n - 3 = 0`
still holds, so `input[2^64 - 1]` is read — an out-of-bounds access,
modelled as `none`. -/
theorem C10_counterexample :
    base64.avx2_decode [61, 61, 61] = none ∧
    base64.sse4_decode [61, 61, 61] = none := by
  decide

/-- C10 (amended).  For every byte-valued nonempty input other than
`"==="` (of length at most `2 ^ 22`): the padding scan of both SIMD
decoders terminates without any out-of-bounds access, every 32-byte
(resp. 16-byte) aligned block load lies inside the padded copy, and
every output store (bytes `24k..24k+28` for the AVX2 block `k`, bytes
`12k..12k+16` for the SSE4 block `k`) lies inside the allocated output
vector of the padded size. -/
theorem C10_theorem (enc : List Nat) (hne : enc ≠ []) (hne3 : enc ≠ [61, 61, 61])
    (hlen : enc.length ≤ 2 ^ 22) :
    (base64.scanPadding
      (enc ++ List.replicate (base64.alignUp enc.length 32 - enc.length) 0)
      enc.length).isSome ∧
    (base64.scanPadding
      (enc ++ List.replicate (base64.alignUp enc.length 16 - enc.length) 0)
      enc.length).isSome ∧
    (∀ pos, pos < base64.alignUp enc.length 32 → pos % 32 = 0 →
      pos + 32 ≤ base64.alignUp enc.length 32) ∧
    (∀ pos, pos < base64.alignUp enc.length 16 → pos % 16 = 0 →
      pos + 16 ≤ base64.alignUp enc.length 16) ∧
    (∀ k, k < base64.alignUp enc.length 32 / 32 →
      24 * k + 12 + 16 ≤ base64.alignUp enc.length 32) ∧
    (∀ k, k < base64.alignUp enc.length 16 / 16 →
      12 * k + 16 ≤ base64.alignUp enc.length 16) := by
  have h1 : 1 ≤ enc.length := List.length_pos.mpr hne
  refine ⟨base64.scanPadding_isSome enc _ hne hne3 hlen,
    base64.scanPadding_isSome enc _ hne hne3 hlen, ?_, ?_, ?_, ?_⟩
  · intro pos hp hm
    unfold base64.alignUp at *
    omega
  · intro pos hp hm
    unfold base64.alignUp at *
    omega
  · intro k hk
    unfold base64.alignUp at *
    omega
  · intro k hk
    unfold base64.alignUp at *
    omega

/-- C10 (witness): the amended in-bounds statement at the one-byte input
`"A"`. -/
theorem C10_witness :
    ([65] : List Nat) ≠ [] ∧ ([65] : List Nat) ≠ [61, 61, 61] ∧
    ([65] : List Nat).length ≤ 2 ^ 22 ∧
    ((base64.scanPadding
        ([65] ++ List.replicate (base64.alignUp 1 32 - 1) 0) 1).isSome ∧
      (base64.scanPadding
        ([65] ++ List.replicate (base64.alignUp 1 16 - 1) 0) 1).isSome) :=
  ⟨by decide, by decide, by decide,
    ⟨(C10_theorem [65] (by decide) (by decide) (by decide)).1,
      (C10_theorem [65] (by decide) (by decide) (by decide)).2.1⟩⟩

end fastgltf
